import Mathlib

/-!
Verification of the questionnaire-to-CSV projection of the RSE-AUDIREP
repository. The Node backend (server.js) and the two PHP save endpoints
(savecsv.php and the unnamed PHP endpoint) are shallowly embedded as pure
Lean functions: JavaScript / PHP strings become Lean `String` (or `List Nat`
of bytes where the byte level matters), dynamic values become small
inductive types, and the file system becomes explicit `Option` state
(`none` = the file does not exist).
-/

namespace Audirep

/-! ## JavaScript value model (server.js) -/

/-- Primitive JavaScript value reaching the CSV layer: a string or a number.
`String(v)` coercion is `JsPrim.toStr`. -/
inductive JsPrim where
  | str (s : String)
  | num (n : Int)
deriving DecidableEq, Repr

/-- JavaScript `String(v)` coercion for the primitives that occur. -/
def JsPrim.toStr : JsPrim → String
  | .str s => s
  | .num n => toString n

/-- Embeds `value === undefined || value === null ? '' : String(value)`
(server.js line 131): `none` stands for `undefined`/`null`. -/
def jsStringValue : Option JsPrim → String
  | none => ""
  | some p => p.toStr

/-- Value stored in the `answers` map for one question id: either a bare
scalar or a record with optional `value` / `followup` properties (`none`
standing for an absent, `undefined` or `null` property).  An absent or
`null` map entry is modelled as `none` at the use site. -/
inductive JsAnswer where
  | prim (p : JsPrim)
  | record (value : Option JsPrim) (followup : Option JsPrim)
deriving DecidableEq, Repr

/-! ## Question schema model -/

/-- One entry of a `questions` array of questions.json: `id` and `type` are
`none` when the property is missing or `null`.  A `null` array entry behaves
exactly like an entry without an id, so it is folded into `id := none`. -/
structure RawQuestion where
  id : Option String
  type : Option String
deriving DecidableEq, Repr

/-- One entry of the `sections` array: `questions` is `none` when the
property is missing or not an array. -/
structure RawSection where
  questions : Option (List RawQuestion)
deriving DecidableEq, Repr

/-- Parsed questions.json document: either valid JSON without a usable
`sections` array, or a `sections` array. -/
inductive QuestionsDoc where
  | noSections
  | sections (l : List RawSection)
deriving DecidableEq, Repr

/-- Outcome of reading and JSON-parsing the schema file: the read failed,
the content was not valid JSON (or parsed to a falsy value), or it parsed
to a document. -/
inductive SchemaSrc where
  | readFailed
  | badJson
  | parsed (d : QuestionsDoc)
deriving DecidableEq, Repr

/-- Embeds `loadQuestionsDefinition` (server.js lines 41-55): a read error or
JSON.parse failure is caught, logged and turned into `null` (`none`). -/
def loadQuestionsDefinition : SchemaSrc → Option QuestionsDoc
  | .readFailed => none
  | .badJson => none
  | .parsed d => some d

/-- Embeds `flattenQuestions` (server.js lines 57-73): sections in file
order, questions of a section in file order; sections without a usable
`questions` array contribute nothing. -/
def flattenQuestions : QuestionsDoc → List RawQuestion
  | .noSections => []
  | .sections l => l.flatMap (fun s => s.questions.getD [])

/-- Embeds the `!question || !question.id` guard of `buildCsvConfiguration`
(server.js line 81): a missing, `null` or empty-string id is falsy. -/
def hasCsvId (q : RawQuestion) : Bool :=
  match q.id with
  | none => false
  | some s => s != ""

/-- Ids of the questions of one type, in order, as collected by the
single `forEach` pass of `buildCsvConfiguration` (server.js lines 80-92)
pushing into the `ratingIds` / `radioIds` / `openIds` arrays. -/
def questionIdsOfType (t : String) : List RawQuestion → List String
  | [] => []
  | q :: qs =>
      if hasCsvId q && q.type == some t then
        q.id.getD "" :: questionIdsOfType t qs
      else
        questionIdsOfType t qs

/-- Result record of `buildCsvConfiguration` (server.js lines 122-127). -/
structure CsvConfig where
  columns : List String
  ratingIds : List String
  radioIds : List String
  openIds : List String
deriving DecidableEq, Repr

/-- Embeds the sentinel pinning of `buildCsvConfiguration` (server.js lines
94-105): `introKey` and `outroKey` come from `find?` (with `|| null` giving
`none`), the middle keeps every open id different from both keys, and the
ordered list is intro key, middle, outro key. -/
def orderOpenIds (openIds : List String) : List String :=
  let introKey := openIds.find? (fun id => id == "QO_INTRO")
  let outroKey := openIds.find? (fun id => id == "QO_OUTRO")
  let middleOpenIds := openIds.filter
    (fun id => !(introKey == some id) && !(outroKey == some id))
  (match introKey with | some k => [k] | none => [])
    ++ middleOpenIds
    ++ (match outroKey with | some k => [k] | none => [])

/-- Embeds `buildCsvConfiguration` (server.js lines 75-128): partition by
type, pin `QO_INTRO` first and `QO_OUTRO` last among open ids, then build
`columns` as the three metadata columns, the ordered open ids, each rating
id followed by its `_followup` column, and the radio ids. -/
def buildCsvConfiguration (qs : List RawQuestion) : CsvConfig :=
  let ratingIds := questionIdsOfType "rating" qs
  let radioIds := questionIdsOfType "radio" qs
  let openIds := questionIdsOfType "open" qs
  let orderedOpenIds := orderOpenIds openIds
  let columns :=
    ["sessionId", "timestampStart", "timestampEnd"]
      ++ orderedOpenIds
      ++ ratingIds.flatMap (fun id => [id, id ++ "_followup"])
      ++ radioIds
  { columns := columns
    ratingIds := ratingIds
    radioIds := radioIds
    openIds := orderedOpenIds }

/-! ## CSV rendering (server.js lines 130-134 and 202) -/

/-- Embeds `stringValue.replace(/"/g, '""')` (server.js line 132): every
double quote of the string is doubled. -/
def escapeQuotes : List Char → List Char
  | [] => []
  | c :: cs =>
      if c = '"' then '"' :: '"' :: escapeQuotes cs
      else c :: escapeQuotes cs

/-- Embeds `formatCsvValue` (server.js lines 130-134): coerce to string,
double the quotes, wrap in double quotes. -/
def formatCsvValue (v : Option JsPrim) : String :=
  String.mk ('"' :: escapeQuotes (jsStringValue v).data ++ ['"'])

/-- Embeds `Array.prototype.join(',')` on a list of strings, at the
character level. -/
def joinCommaData : List (List Char) → List Char
  | [] => []
  | [s] => s
  | s :: t :: rest => s ++ ',' :: joinCommaData (t :: rest)

/-- Embeds `values.map(formatCsvValue).join(',') + '\n'` (server.js lines
140 and 202): one CSV line. -/
def renderLine (vals : List (Option JsPrim)) : String :=
  String.mk (joinCommaData (vals.map (fun v => (formatCsvValue v).data)) ++ ['\n'])

/-- CSV line for a list of plain strings (every value already a string). -/
def rowLine (row : List String) : String :=
  renderLine (row.map (fun s => some (.str s)))

/-! ## Answer extraction and row construction (server.js lines 145-204) -/

/-- Embeds `extractAnswerValue` (server.js lines 145-159).  `none` stands
for an `undefined` or `null` answer; the `field` string indexes the record
dynamically as in `answer[field]`. -/
def extractAnswerValue (answer : Option JsAnswer) (field : String) : String :=
  match answer with
  | none => ""
  | some (.record v f) =>
      let candidate := if field = "value" then v else if field = "followup" then f else none
      match candidate with
      | none => ""
      | some c => c.toStr
  | some (.prim p) => if field = "value" then p.toStr else ""

/-- Embeds `ensureCsvHeader` (server.js lines 136-143) as a pure transition
on the file state: when the file is absent the header line is written. -/
def ensureCsvHeader (columns : List String) (file : Option String) : Option String :=
  match file with
  | some _ => file
  | none => some (rowLine columns)

/-- Embeds `fs.appendFile` on the modelled file: appending creates the file
when it does not exist. -/
def appendToFile (file : Option String) (line : String) : Option String :=
  some (file.getD "" ++ line)

/-- Embeds the JavaScript `a || b` fallback chain on optional strings:
an absent or empty string falls through to the default. -/
def jsOrElse (v : Option String) (d : String) : String :=
  match v with
  | none => d
  | some s => if s = "" then d else s

/-- The `structuredAnswers` request field (server.js lines 161-178):
`answers` is the map from question id to answer (`none` = key absent or
`null`), with the optional timestamp overrides. -/
structure StructuredAnswers where
  answers : Option (String → Option JsAnswer)
  timestampStart : Option String
  timestampEnd : Option String

/-- Embeds the `rowValues` construction of `appendStructuredAnswersToCsv`
(server.js lines 180-200): metadata, then per ordered open id the value,
per rating id the value and the followup, per radio id the value. -/
def buildRowValues (cfg : CsvConfig) (answers : String → Option JsAnswer)
    (sessionId timestampStart timestampEnd : String) : List String :=
  [sessionId, timestampStart, timestampEnd]
    ++ cfg.openIds.map (fun id => extractAnswerValue (answers id) "value")
    ++ cfg.ratingIds.flatMap (fun id =>
        [extractAnswerValue (answers id) "value",
         extractAnswerValue (answers id) "followup"])
    ++ cfg.radioIds.map (fun id => extractAnswerValue (answers id) "value")

/-- Embeds `appendStructuredAnswersToCsv` (server.js lines 161-204) as a
pure function of the schema-source outcome, the request data and the file
state.  The result carries the new file state and whether a data row was
appended; `Except` is the exception channel (never used on the schema
paths: the function returns silently, exactly as the source does). -/
def appendStructuredAnswersToCsv (src : SchemaSrc) (sessionId : String)
    (structuredAnswers : Option StructuredAnswers)
    (tsStart tsEnd : Option String) (file : Option String) :
    Except String (Option String × Bool) :=
  match structuredAnswers with
  | none => .ok (file, false)
  | some sa =>
      match loadQuestionsDefinition src with
      | none => .ok (file, false)
      | some d =>
          let flattened := flattenQuestions d
          let cfg := buildCsvConfiguration flattened
          let file1 := ensureCsvHeader cfg.columns file
          let answers := sa.answers.getD (fun _ => none)
          let timestampStart := jsOrElse sa.timestampStart (jsOrElse tsStart "")
          let timestampEnd := jsOrElse sa.timestampEnd (jsOrElse tsEnd "")
          let row := buildRowValues cfg answers sessionId timestampStart timestampEnd
          .ok (appendToFile file1 (renderLine (row.map (fun s => some (.str s)))), true)

/-! ## PHP value model (savecsv.php and the unnamed PHP endpoint)

PHP strings are byte strings; they are modelled as `List Nat` with every
element below 256.  Question ids and map keys are kept as Lean `String`
(they are plain ASCII identifiers); only the text values, where
`utf8_decode` matters, are kept at the byte level. -/

/-- PHP value reaching the CSV layer of the endpoints: a byte string or a
number.  An absent / `null` value is modelled as `none` at the use sites
(PHP `isset` is false on `null`). -/
inductive PhpVal where
  | str (bytes : List Nat)
  | num (n : Int)
deriving DecidableEq, Repr

/-- PHP `(string)` cast for the values that occur. -/
def PhpVal.toStr : PhpVal → List Nat
  | .str b => b
  | .num n => (toString n).data.map Char.toNat

/-- Value stored under one question id of the PHP `$answers` map: a bare
scalar or an associative array with optional `value` / `followup` entries
(`none` = entry absent or `null`, matching the `?? ''` coalescing). -/
inductive PhpAnswer where
  | scalar (v : PhpVal)
  | record (value : Option PhpVal) (followup : Option PhpVal)
deriving DecidableEq, Repr

/-- Embeds `str_replace("\"", "\"\"", $string)`: every double-quote byte
(34) is doubled. -/
def escapeQuoteBytes : List Nat → List Nat
  | [] => []
  | b :: bs =>
      if b = 34 then 34 :: 34 :: escapeQuoteBytes bs
      else b :: escapeQuoteBytes bs

namespace Php

/-- Embeds the PHP `formatCsvValue` (savecsv.php lines 63-70, identical in
the unnamed endpoint): cast to string, double the quotes, wrap in double
quotes (byte 34). -/
def formatCsvValue (v : PhpVal) : List Nat :=
  34 :: escapeQuoteBytes v.toStr ++ [34]

/-- Embeds the PHP `extractAnswer` (savecsv.php lines 71-80, identical in
the unnamed endpoint).  `answers key = none` covers `isset` being false
(key absent or value `null`). -/
def extractAnswer (answers : String → Option PhpAnswer) (key : String)
    (field : String) : PhpVal :=
  match answers key with
  | none => .str []
  | some (.scalar v) => if field = "value" then v else .str []
  | some (.record v f) =>
      (if field = "value" then v
       else if field = "followup" then f
       else none).getD (.str [])

/-- Maps a Unicode code point into ISO-8859-1: points above 255 become the
question mark, as PHP `utf8_decode` does. -/
def latin1Of (c : Nat) : Nat :=
  if c < 256 then c else 63

/-- Models PHP `utf8_decode` at the byte level on well-formed UTF-8 input:
each encoded code point is decoded and mapped through `latin1Of`.
(The handling of malformed sequences is a best effort; the theorems only
evaluate it on well-formed UTF-8, which is what `json_decode` produces.) -/
def utf8Decode : List Nat → List Nat
  | [] => []
  | b :: rest =>
      if b < 128 then b :: utf8Decode rest
      else if b < 192 then 63 :: utf8Decode rest
      else if b < 224 then
        match rest with
        | [] => [63]
        | b2 :: rest2 => latin1Of ((b - 192) * 64 + (b2 - 128)) :: utf8Decode rest2
      else if b < 240 then
        match rest with
        | [] => [63]
        | b2 :: rest2 =>
            match rest2 with
            | [] => [63]
            | b3 :: rest3 =>
                latin1Of ((b - 224) * 4096 + (b2 - 128) * 64 + (b3 - 128))
                  :: utf8Decode rest3
      else
        match rest with
        | [] => [63]
        | b2 :: rest2 =>
            match rest2 with
            | [] => [63]
            | b3 :: rest3 =>
                match rest3 with
                | [] => [63]
                | b4 :: rest4 =>
                    latin1Of ((b - 240) * 262144 + (b2 - 128) * 4096
                      + (b3 - 128) * 64 + (b4 - 128)) :: utf8Decode rest4

/-- Embeds `decodeOpenText` (savecsv.php lines 82-85): cast to string, and
apply `utf8_decode` unless the string is empty. -/
def decodeOpenText (v : PhpVal) : List Nat :=
  let s := v.toStr
  if s = [] then [] else utf8Decode s

/-- Embeds `decodeText` of the unnamed PHP endpoint (lines 73-76); its body
is identical to `decodeOpenText`. -/
def decodeText (v : PhpVal) : List Nat :=
  let s := v.toStr
  if s = [] then [] else utf8Decode s

/-- Embeds `implode(',', $row)` at the byte level (byte 44 is the comma). -/
def joinCommaBytes : List (List Nat) → List Nat
  | [] => []
  | [s] => s
  | s :: t :: rest => s ++ 44 :: joinCommaBytes (t :: rest)

/-- Response of a PHP endpoint: `respond($status, ...)` with either a
success payload or an error message. -/
inductive PhpResponse where
  | success (status : Nat)
  | failure (status : Nat) (msg : String)
deriving DecidableEq, Repr

/-- Embeds the `isset($question['id'], $question['type'])` guard of both
PHP endpoints. -/
def issetIdType (q : RawQuestion) : Bool :=
  q.id.isSome && q.type.isSome

/-- Flattened question list of the PHP endpoints: sections in order,
skipping sections without a usable `questions` array. -/
def questionList (sections : List RawSection) : List RawQuestion :=
  sections.flatMap (fun s => s.questions.getD [])

/-- Ids of the questions of one type collected by the `switch` of
savecsv.php (lines 41-61): entries failing the `isset` guard or with
another type are skipped. -/
def idsOfType (t : String) : List RawQuestion → List String
  | [] => []
  | q :: qs =>
      if issetIdType q && q.type == some t then
        q.id.getD "" :: idsOfType t qs
      else
        idsOfType t qs

end Php

namespace SaveCsv

/-- Embeds the `$row` construction of savecsv.php (lines 87-104): metadata,
then per open id the decoded value and the decoded followup, per rating id
the raw value, per radio id the raw value. -/
def row (sections : List RawSection) (answers : String → Option PhpAnswer)
    (sessionId timestampStart timestampEnd : PhpVal) : List (List Nat) :=
  let qs := Php.questionList sections
  [Php.formatCsvValue sessionId,
   Php.formatCsvValue timestampStart,
   Php.formatCsvValue timestampEnd]
    ++ (Php.idsOfType "open" qs).flatMap (fun id =>
        [Php.formatCsvValue (.str (Php.decodeOpenText (Php.extractAnswer answers id "value"))),
         Php.formatCsvValue (.str (Php.decodeOpenText (Php.extractAnswer answers id "followup")))])
    ++ (Php.idsOfType "rating" qs).map (fun id =>
        Php.formatCsvValue (Php.extractAnswer answers id "value"))
    ++ (Php.idsOfType "radio" qs).map (fun id =>
        Php.formatCsvValue (Php.extractAnswer answers id "value"))

/-- Embeds savecsv.php from the schema load on (lines 26-113): schema
failures respond 500 and leave the file untouched; otherwise the row is
appended (byte 10 terminates the line) and the endpoint responds 200.
The request body is taken as already parsed (the claims under study are
about the schema and CSV stages). -/
def handle (src : SchemaSrc) (sessionId timestampStart timestampEnd : PhpVal)
    (answers : String → Option PhpAnswer) (file : Option (List Nat)) :
    Php.PhpResponse × Option (List Nat) :=
  match src with
  | .readFailed => (.failure 500 "Impossible de charger questions.json", file)
  | .badJson => (.failure 500 "questions.json invalide", file)
  | .parsed .noSections => (.failure 500 "questions.json invalide", file)
  | .parsed (.sections l) =>
      let line := Php.joinCommaBytes (row l answers sessionId timestampStart timestampEnd) ++ [10]
      (.success 200, some (file.getD [] ++ line))

end SaveCsv

namespace PartZero

/-- Embeds the `$orderedQuestions` collection of the unnamed PHP endpoint
(lines 37-52): all questions passing the `isset` guard, in schema order,
types mixed. -/
def orderedQuestions (sections : List RawSection) : List RawQuestion :=
  (Php.questionList sections).filter Php.issetIdType

/-- Embeds the `$row` construction of the unnamed PHP endpoint (lines
78-102): metadata, then per question in schema order one column for an
open (decoded value), two for a rating (raw value, decoded followup), one
for a radio (decoded value); other types contribute nothing. -/
def row (sections : List RawSection) (answers : String → Option PhpAnswer)
    (sessionId timestampStart timestampEnd : PhpVal) : List (List Nat) :=
  [Php.formatCsvValue sessionId,
   Php.formatCsvValue timestampStart,
   Php.formatCsvValue timestampEnd]
    ++ (orderedQuestions sections).flatMap (fun q =>
        let id := q.id.getD ""
        if q.type == some "open" then
          [Php.formatCsvValue (.str (Php.decodeText (Php.extractAnswer answers id "value")))]
        else if q.type == some "rating" then
          [Php.formatCsvValue (Php.extractAnswer answers id "value"),
           Php.formatCsvValue (.str (Php.decodeText (Php.extractAnswer answers id "followup")))]
        else if q.type == some "radio" then
          [Php.formatCsvValue (.str (Php.decodeText (Php.extractAnswer answers id "value")))]
        else [])

/-- Embeds the unnamed PHP endpoint from the schema load on (lines 26-111):
same response discipline as savecsv.php, with its own row shape. -/
def handle (src : SchemaSrc) (sessionId timestampStart timestampEnd : PhpVal)
    (answers : String → Option PhpAnswer) (file : Option (List Nat)) :
    Php.PhpResponse × Option (List Nat) :=
  match src with
  | .readFailed => (.failure 500 "Impossible de charger questions.json", file)
  | .badJson => (.failure 500 "questions.json invalide", file)
  | .parsed .noSections => (.failure 500 "questions.json invalide", file)
  | .parsed (.sections l) =>
      let line := Php.joinCommaBytes (row l answers sessionId timestampStart timestampEnd) ++ [10]
      (.success 200, some (file.getD [] ++ line))

end PartZero

/-- Header line written by `ensureCsvHeader` for the layout of a schema
document. -/
def csvHeaderLine (d : QuestionsDoc) : String :=
  rowLine (buildCsvConfiguration (flattenQuestions d)).columns

/-- Data line appended by `appendStructuredAnswersToCsv` for a schema
document and one submission. -/
def csvDataLine (d : QuestionsDoc) (sa : StructuredAnswers) (sessionId : String)
    (tsStart tsEnd : Option String) : String :=
  rowLine (buildRowValues (buildCsvConfiguration (flattenQuestions d))
    (sa.answers.getD (fun _ => none)) sessionId
    (jsOrElse sa.timestampStart (jsOrElse tsStart ""))
    (jsOrElse sa.timestampEnd (jsOrElse tsEnd "")))

/-! ## Specification-side definitions

These formulate the wording of the specification and of the claims,
independently of the push-based code above; the theorems compare the two. -/

/-- Ids of the questions of one `type` in schema order, as the spec words
it: partition by type, preserving relative order; entries without a usable
id are skipped. -/
def specIdsOfType (t : String) (qs : List RawQuestion) : List String :=
  qs.filterMap (fun q =>
    match q.id with
    | some s => if s ≠ "" ∧ q.type = some t then some s else none
    | none => none)

/-- Open-column order as the spec words it: the intro sentinel pinned
first when present, the outro sentinel pinned last when present, every
other open id in between in schema order. -/
def pinOpen (l : List String) : List String :=
  (if "QO_INTRO" ∈ l then ["QO_INTRO"] else [])
    ++ l.filter (fun id => id != "QO_INTRO" && id != "QO_OUTRO")
    ++ (if "QO_OUTRO" ∈ l then ["QO_OUTRO"] else [])

/-- All question ids present in the schema (any type, including types the
projection ignores). -/
def schemaIds (qs : List RawQuestion) : List String :=
  qs.filterMap (fun q => q.id)

/-- The two fields the answer extractor can be asked for. -/
inductive FieldSel where
  | value
  | followup
deriving DecidableEq, Repr

/-- The string key the code passes for a field selector. -/
def FieldSel.key : FieldSel → String
  | .value => "value"
  | .followup => "followup"

/-- Answer extraction as the claim words it: empty string when the answer
is absent; for a record the named field coerced to string with empty
string for an absent field; for a bare scalar the scalar coerced to
string for `value` and the empty string for `followup`. -/
def extractSpec (answer : Option JsAnswer) : FieldSel → String
  | .value =>
      match answer with
      | none => ""
      | some (.record v _) => (v.map JsPrim.toStr).getD ""
      | some (.prim p) => p.toStr
  | .followup =>
      match answer with
      | none => ""
      | some (.record _ f) => (f.map JsPrim.toStr).getD ""
      | some (.prim _) => ""

/-- Quote escaping as the claim words it: every double quote is doubled,
every other character is kept. -/
def specEscape (s : List Char) : List Char :=
  s.flatMap (fun c => if c = '"' then ['"', '"'] else [c])

/-! ## Standard CSV parser (specification side, for the round-trip claim)

Parses one newline-terminated line of fully double-quoted comma-separated
fields with doubled-quote escaping.  An empty line is a record with no
fields. -/

/-- Parses the remainder of a line, inside a quoted field: `acc` is the
content of the current field so far, `fields` the completed fields.  A
doubled quote is an escaped quote; a quote followed by a comma and an
opening quote starts the next field; a quote followed by the final newline
ends the record. -/
def parseInField : List Char → List Char → List (List Char) → Option (List (List Char))
  | [], _, _ => none
  | c :: rest, acc, fields =>
      if c = '"' then
        match rest with
        | [] => none
        | c2 :: rest2 =>
            if c2 = '"' then parseInField rest2 (acc ++ ['"']) fields
            else if c2 = ',' then
              match rest2 with
              | '"' :: rest3 => parseInField rest3 [] (fields ++ [acc])
              | _ => none
            else if c2 = '\n' then
              if rest2 = [] then some (fields ++ [acc]) else none
            else none
      else parseInField rest (acc ++ [c]) fields

/-- Parses one CSV line: either the empty record (a bare newline) or an
opening quote followed by quoted fields. -/
def parseLine : List Char → Option (List (List Char))
  | ['\n'] => some []
  | '"' :: rest => parseInField rest [] []
  | _ => none

/-- Parses one CSV line of a Lean string back into its field strings. -/
def parseCsvLine (s : String) : Option (List String) :=
  (parseLine s.data).map (fun fs => fs.map String.mk)

/-- One quoted CSV field at the character level: the escaped content
wrapped in double quotes. -/
def quoteData (s : List Char) : List Char :=
  '"' :: escapeQuotes s ++ ['"']

/-- Concatenation of the remaining quoted fields of a line, each preceded
by its separating comma. -/
def renderedTail (vs : List (List Char)) : List Char :=
  vs.flatMap (fun u => ',' :: quoteData u)

/-! ## UTF-8 encoding (specification side, used to state the transcoding
claim about the PHP `utf8_decode` calls) -/

/-- Standard UTF-8 encoding of one Unicode code point. -/
def utf8EncodeChar (c : Nat) : List Nat :=
  if c < 128 then [c]
  else if c < 2048 then [192 + c / 64, 128 + c % 64]
  else if c < 65536 then [224 + c / 4096, 128 + c / 64 % 64, 128 + c % 64]
  else [240 + c / 262144, 128 + c / 4096 % 64, 128 + c / 64 % 64, 128 + c % 64]

/-- Standard UTF-8 encoding of a sequence of code points: the byte string a
JSON decoder hands to PHP for that text. -/
def utf8Encode (cps : List Nat) : List Nat :=
  cps.flatMap utf8EncodeChar

end Audirep

example :
    Audirep.parseCsvLine "\"s1\",\"\",\"hello \"\"world\"\"\"\n"
    = some ["s1", "", "hello \"world\""] := by decide

example : Audirep.parseCsvLine "\n" = some [] := by decide

example :
    Audirep.parseCsvLine (Audirep.rowLine ["a,b", "c\"d", ""]) = some ["a,b", "c\"d", ""] := by
  decide

example : Audirep.utf8Encode [101, 233] = [101, 195, 169] := by decide

example : Audirep.Php.utf8Decode [101, 195, 169] = [101, 233] := by decide

example : Audirep.Php.utf8Decode (Audirep.utf8Encode [8364]) = [63] := by decide

namespace Audirep

/-! ## Column layout: lemmas -/

lemma questionIdsOfType_eq_spec (t : String) (qs : List RawQuestion) :
    questionIdsOfType t qs = specIdsOfType t qs := by
  induction qs with
  | nil => rfl
  | cons q qs ih =>
      cases hid : q.id with
      | none =>
          simp [questionIdsOfType, specIdsOfType, hasCsvId, hid, List.filterMap_cons,
            specIdsOfType] at ih ⊢
          exact ih
      | some s =>
          by_cases hs : s = ""
          · subst hs
            simp [questionIdsOfType, specIdsOfType, hasCsvId, hid, List.filterMap_cons] at ih ⊢
            exact ih
          · by_cases ht : q.type = some t
            · simp [questionIdsOfType, specIdsOfType, hasCsvId, hid, hs, ht,
                List.filterMap_cons] at ih ⊢
              exact ih
            · simp [questionIdsOfType, specIdsOfType, hasCsvId, hid, hs, ht,
                List.filterMap_cons] at ih ⊢
              exact ih

lemma find?_beq_eq_ite (l : List String) (k : String) :
    l.find? (fun id => id == k) = if k ∈ l then some k else none := by
  induction l with
  | nil => simp
  | cons a l ih =>
      by_cases h : a = k
      · subst h
        simp [List.find?_cons]
      · simp [List.find?_cons, h, Ne.symm h, ih, List.mem_cons]

lemma orderOpenIds_eq_pinOpen (l : List String) : orderOpenIds l = pinOpen l := by
  unfold orderOpenIds pinOpen
  rw [find?_beq_eq_ite l "QO_INTRO", find?_beq_eq_ite l "QO_OUTRO"]
  by_cases hi : "QO_INTRO" ∈ l <;> by_cases ho : "QO_OUTRO" ∈ l <;>
    simp only [hi, ho, if_true, if_false] <;>
    refine congrArg₂ (· ++ ·) (congrArg₂ (· ++ ·) rfl ?_) rfl <;>
    refine List.filter_congr (fun x hx => ?_)
  · by_cases h1 : x = "QO_INTRO"
    · subst h1; decide
    · by_cases h2 : x = "QO_OUTRO"
      · subst h2; decide
      · have k1 : ("QO_INTRO" == x) = false := beq_eq_false_iff_ne.mpr (Ne.symm h1)
        have k2 : ("QO_OUTRO" == x) = false := beq_eq_false_iff_ne.mpr (Ne.symm h2)
        have j1 : (x != "QO_INTRO") = true := bne_iff_ne.mpr h1
        have j2 : (x != "QO_OUTRO") = true := bne_iff_ne.mpr h2
        simp [Option.some_beq_some, k1, k2, j1, j2]
  · have h2 : x ≠ "QO_OUTRO" := fun h => ho (h ▸ hx)
    have j2 : (x != "QO_OUTRO") = true := bne_iff_ne.mpr h2
    by_cases h1 : x = "QO_INTRO"
    · subst h1; decide
    · have k1 : ("QO_INTRO" == x) = false := beq_eq_false_iff_ne.mpr (Ne.symm h1)
      have j1 : (x != "QO_INTRO") = true := bne_iff_ne.mpr h1
      simp [Option.some_beq_some, Option.none_beq_some, k1, j1, j2]
  · have h1 : x ≠ "QO_INTRO" := fun h => hi (h ▸ hx)
    have j1 : (x != "QO_INTRO") = true := bne_iff_ne.mpr h1
    by_cases h2 : x = "QO_OUTRO"
    · subst h2; decide
    · have k2 : ("QO_OUTRO" == x) = false := beq_eq_false_iff_ne.mpr (Ne.symm h2)
      have j2 : (x != "QO_OUTRO") = true := bne_iff_ne.mpr h2
      simp [Option.some_beq_some, Option.none_beq_some, k2, j1, j2]
  · have h1 : x ≠ "QO_INTRO" := fun h => hi (h ▸ hx)
    have h2 : x ≠ "QO_OUTRO" := fun h => ho (h ▸ hx)
    have j1 : (x != "QO_INTRO") = true := bne_iff_ne.mpr h1
    have j2 : (x != "QO_OUTRO") = true := bne_iff_ne.mpr h2
    simp [Option.none_beq_some, j1, j2]

lemma buildCsvConfiguration_openIds (qs : List RawQuestion) :
    (buildCsvConfiguration qs).openIds = pinOpen (questionIdsOfType "open" qs) := by
  simp [buildCsvConfiguration, orderOpenIds_eq_pinOpen]

lemma pinOpen_head {l : List String} (h : "QO_INTRO" ∈ l) :
    (pinOpen l).head? = some "QO_INTRO" := by
  simp [pinOpen, h]

lemma pinOpen_getLast {l : List String} (h : "QO_OUTRO" ∈ l) :
    (pinOpen l).getLast? = some "QO_OUTRO" := by
  simp [pinOpen, h, List.getLast?_append]

lemma pinOpen_filter (l : List String) :
    (pinOpen l).filter (fun id => id != "QO_INTRO" && id != "QO_OUTRO")
      = l.filter (fun id => id != "QO_INTRO" && id != "QO_OUTRO") := by
  by_cases hi : "QO_INTRO" ∈ l <;> by_cases ho : "QO_OUTRO" ∈ l <;>
    simp [pinOpen, hi, ho, List.filter_append, List.filter_filter, Bool.and_self]

lemma pinOpen_of_not_mem {l : List String}
    (hi : "QO_INTRO" ∉ l) (ho : "QO_OUTRO" ∉ l) : pinOpen l = l := by
  have : l.filter (fun id => id != "QO_INTRO" && id != "QO_OUTRO") = l := by
    refine List.filter_eq_self.mpr (fun x hx => ?_)
    have h1 : x ≠ "QO_INTRO" := fun h => hi (h ▸ hx)
    have h2 : x ≠ "QO_OUTRO" := fun h => ho (h ▸ hx)
    simp [h1, h2]
  simp [pinOpen, hi, ho, this]

/-! ## Claim C1 -/

/-- C1 (counterexample): for the schema with open questions `QO_OUTRO` then
`QA`, the layout is NOT the three metadata columns followed by the open ids
in their original schema order: the sentinel pinning moves `QO_OUTRO` to
the end of the open block. -/
theorem c1_layout_counterexample :
    (buildCsvConfiguration
        [⟨some "QO_OUTRO", some "open"⟩, ⟨some "QA", some "open"⟩]).columns
      = ["sessionId", "timestampStart", "timestampEnd", "QA", "QO_OUTRO"]
    ∧ (buildCsvConfiguration
        [⟨some "QO_OUTRO", some "open"⟩, ⟨some "QA", some "open"⟩]).columns
      ≠ ["sessionId", "timestampStart", "timestampEnd", "QO_OUTRO", "QA"] := by
  decide

/-- C1 (amended): the column layout is exactly `[sessionId, timestampStart,
timestampEnd]`, then the open-question columns, then the rating-question
columns (each rating id immediately followed by its `id_followup` column),
then the radio-question columns; each type group keeps the schema order,
except that among the open columns the sentinel `QO_INTRO` is pinned first
and `QO_OUTRO` last when present. -/
theorem c1_layout_grouping (qs : List RawQuestion) :
    (buildCsvConfiguration qs).columns
      = ["sessionId", "timestampStart", "timestampEnd"]
        ++ pinOpen (specIdsOfType "open" qs)
        ++ (specIdsOfType "rating" qs).flatMap (fun id => [id, id ++ "_followup"])
        ++ specIdsOfType "radio" qs := by
  simp [buildCsvConfiguration, orderOpenIds_eq_pinOpen, questionIdsOfType_eq_spec]

/-! ## Claim C4 -/

/-- C4: among the open-question columns, `QO_INTRO` is pinned first when it
occurs among the open ids and `QO_OUTRO` is pinned last when it occurs; the
non-sentinel open ids keep their schema order; and when neither sentinel
occurs the open columns are exactly the open ids in schema order. -/
theorem c4_sentinel_pinning (qs : List RawQuestion) :
    ("QO_INTRO" ∈ questionIdsOfType "open" qs →
      (buildCsvConfiguration qs).openIds.head? = some "QO_INTRO")
    ∧ ("QO_OUTRO" ∈ questionIdsOfType "open" qs →
      (buildCsvConfiguration qs).openIds.getLast? = some "QO_OUTRO")
    ∧ (buildCsvConfiguration qs).openIds.filter
        (fun id => id != "QO_INTRO" && id != "QO_OUTRO")
      = (questionIdsOfType "open" qs).filter
        (fun id => id != "QO_INTRO" && id != "QO_OUTRO")
    ∧ ("QO_INTRO" ∉ questionIdsOfType "open" qs →
        "QO_OUTRO" ∉ questionIdsOfType "open" qs →
      (buildCsvConfiguration qs).openIds = questionIdsOfType "open" qs) := by
  rw [buildCsvConfiguration_openIds]
  exact ⟨fun h => pinOpen_head h, fun h => pinOpen_getLast h,
    pinOpen_filter _, fun hi ho => pinOpen_of_not_mem hi ho⟩

/-- C4 (witness): on a schema listing `QO_OUTRO`, `QB`, `QO_INTRO` as open
questions, the open columns start with `QO_INTRO` and end with `QO_OUTRO`. -/
theorem c4_sentinel_pinning_witness :
    (buildCsvConfiguration [⟨some "QO_OUTRO", some "open"⟩, ⟨some "QB", some "open"⟩,
        ⟨some "QO_INTRO", some "open"⟩]).openIds.head? = some "QO_INTRO"
    ∧ (buildCsvConfiguration [⟨some "QO_OUTRO", some "open"⟩, ⟨some "QB", some "open"⟩,
        ⟨some "QO_INTRO", some "open"⟩]).openIds.getLast? = some "QO_OUTRO" :=
  ⟨(c4_sentinel_pinning _).1 (by decide), (c4_sentinel_pinning _).2.1 (by decide)⟩

/-! ## Claim C5 -/

/-- C5: for every answer set, question id and requested field, the answer
extractor behaves exactly as specified: empty string for an absent answer,
the named field coerced to string (empty when absent) for a record answer,
and for a bare scalar the scalar coerced to string for `value` but the
empty string for `followup`. -/
theorem c5_extract_answer_fields (answers : String → Option JsAnswer)
    (id : String) (f : FieldSel) :
    extractAnswerValue (answers id) f.key = extractSpec (answers id) f := by
  cases answers id with
  | none => cases f <;> rfl
  | some a =>
      cases a with
      | prim p => cases f <;> rfl
      | record v fu => cases f <;> cases v <;> cases fu <;> rfl

/-! ## Claim C6 -/

lemma escapeQuotes_eq_specEscape (s : List Char) : escapeQuotes s = specEscape s := by
  induction s with
  | nil => rfl
  | cons c cs ih =>
      by_cases h : c = '"' <;>
        simp [escapeQuotes, specEscape, h, List.flatMap_cons] <;>
        simpa [specEscape] using ih

lemma joinCommaData_eq_intersperse (l : List (List Char)) :
    joinCommaData l = (List.intersperse [','] l).flatten := by
  induction l with
  | nil => rfl
  | cons s rest ih =>
      cases rest with
      | nil => simp [joinCommaData]
      | cons t ts =>
          simp [joinCommaData, List.intersperse_cons_cons, List.flatten_cons] at ih ⊢
          simp [ih]

lemma newline_not_mem_escapeQuotes : ∀ (s : List Char), '\n' ∉ s → '\n' ∉ escapeQuotes s := by
  intro s
  induction s with
  | nil => intro _; simp [escapeQuotes]
  | cons c cs ih =>
      intro h
      simp only [List.mem_cons, not_or] at h
      obtain ⟨h1, h2⟩ := h
      intro hmem
      by_cases hq : c = '"'
      · subst hq
        rcases (by simpa [escapeQuotes] using hmem :
            '\n' = '"' ∨ '\n' = '"' ∨ '\n' ∈ escapeQuotes cs) with h | h | h
        · exact absurd h (by decide)
        · exact absurd h (by decide)
        · exact ih h2 h
      · rcases (by simpa [escapeQuotes, hq] using hmem :
            '\n' = c ∨ '\n' ∈ escapeQuotes cs) with h | h
        · exact h1 h
        · exact ih h2 h

lemma newline_not_mem_format {v : Option JsPrim} (h' : '\n' ∉ (jsStringValue v).data) :
    '\n' ∉ (formatCsvValue v).data := by
  intro hmem
  rcases (by simpa [formatCsvValue] using hmem :
      '\n' = '"' ∨ '\n' ∈ escapeQuotes (jsStringValue v).data ∨ '\n' = '"') with h | h | h
  · exact absurd h (by decide)
  · exact newline_not_mem_escapeQuotes _ h' h
  · exact absurd h (by decide)

lemma newline_not_mem_joinCommaData :
    ∀ (parts : List (List Char)), (∀ p ∈ parts, '\n' ∉ p) →
      '\n' ∉ joinCommaData parts := by
  intro parts
  induction parts with
  | nil => intro _; simp [joinCommaData]
  | cons s rest ih =>
      intro h
      cases rest with
      | nil => simpa [joinCommaData] using h s (by simp)
      | cons t ts =>
          have hs := h s (by simp)
          have hr := ih (fun p hp => h p (List.mem_cons_of_mem _ hp))
          intro hmem
          rcases (by simpa [joinCommaData] using hmem :
              '\n' ∈ s ∨ '\n' = ',' ∨ '\n' ∈ joinCommaData (t :: ts)) with h | h | h
          · exact hs h
          · exact absurd h (by decide)
          · exact hr h

/-- C6: the CSV value renderer turns `null`/`undefined` into the empty
string, doubles every double quote, always wraps the result in double
quotes, joins the fields with commas, and ends the row with exactly one
newline character. -/
theorem c6_csv_value_rendering (vals : List (Option JsPrim)) (v : Option JsPrim) :
    formatCsvValue none = "\"\""
    ∧ (formatCsvValue v).data = '"' :: specEscape (jsStringValue v).data ++ ['"']
    ∧ (renderLine vals).data
        = (List.intersperse [','] (vals.map (fun u => (formatCsvValue u).data))).flatten
          ++ ['\n']
    ∧ ((∀ u ∈ vals, '\n' ∉ (jsStringValue u).data) →
        (renderLine vals).data.count '\n' = 1) := by
  refine ⟨rfl, by simp [formatCsvValue, escapeQuotes_eq_specEscape],
    by simp [renderLine, joinCommaData_eq_intersperse], fun h => ?_⟩
  have hj : '\n' ∉ joinCommaData (vals.map fun u => (formatCsvValue u).data) :=
    newline_not_mem_joinCommaData _ (fun p hp => by
      obtain ⟨u, hu, rfl⟩ := List.mem_map.mp hp
      exact newline_not_mem_format (h u hu))
  show (joinCommaData (vals.map fun u => (formatCsvValue u).data) ++ ['\n']).count '\n' = 1
  simp [List.count_append, List.count_eq_zero.mpr hj]

/-- C6 (witness): a concrete row with a comma, a missing value and a number
renders with exactly one newline. -/
theorem c6_csv_value_rendering_witness :
    (renderLine [some (.str "a,b"), none, some (.num 7)]).data.count '\n' = 1 :=
  (c6_csv_value_rendering [some (.str "a,b"), none, some (.num 7)] none).2.2.2 (by decide)

/-! ## Claim C2 -/

/-- C2 (counterexample): the CSV append of savecsv.php never writes a
header: called twice on the bytes `s1` as session id with an empty answer
set against a one-open-question schema, starting from a non-existent file,
it produces a file holding exactly two identical data lines, hence two
newline-terminated rows in total instead of a header row followed by two
data rows. -/
theorem c2_php_no_header_counterexample :
    (SaveCsv.handle (.parsed (.sections [⟨some [⟨some "Q1", some "open"⟩]⟩]))
        (.str [115, 49]) (.str []) (.str []) (fun _ => none)
        ((SaveCsv.handle (.parsed (.sections [⟨some [⟨some "Q1", some "open"⟩]⟩]))
          (.str [115, 49]) (.str []) (.str []) (fun _ => none) none).2)).2
      = some ([34, 115, 49, 34, 44, 34, 34, 44, 34, 34, 44, 34, 34, 44, 34, 34, 10]
          ++ [34, 115, 49, 34, 44, 34, 34, 44, 34, 34, 44, 34, 34, 44, 34, 34, 10])
    ∧ ([34, 115, 49, 34, 44, 34, 34, 44, 34, 34, 44, 34, 34, 44, 34, 34, 10]
          ++ [34, 115, 49, 34, 44, 34, 34, 44, 34, 34, 44, 34, 34, 44, 34, 34, 10]).count 10
        = 2 := by
  decide

/-- C2 (amended): in the Node backend, when the CSV file does not exist the
append first writes the header line for the layout, then the data line; two
appends starting from no file therefore leave exactly one header line
followed by the two data lines, in that order.  (The PHP endpoints append
data lines without ever writing a header.) -/
theorem c2_header_on_first_append (d : QuestionsDoc) (sa : StructuredAnswers)
    (sid : String) (tsS tsE : Option String) :
    appendStructuredAnswersToCsv (.parsed d) sid (some sa) tsS tsE none
      = .ok (some (csvHeaderLine d ++ csvDataLine d sa sid tsS tsE), true)
    ∧ appendStructuredAnswersToCsv (.parsed d) sid (some sa) tsS tsE
        (some (csvHeaderLine d ++ csvDataLine d sa sid tsS tsE))
      = .ok (some (csvHeaderLine d ++ csvDataLine d sa sid tsS tsE
          ++ csvDataLine d sa sid tsS tsE), true) := by
  constructor
  · simp [appendStructuredAnswersToCsv, loadQuestionsDefinition, ensureCsvHeader,
      appendToFile, csvHeaderLine, csvDataLine, rowLine]
  · simp [appendStructuredAnswersToCsv, loadQuestionsDefinition, ensureCsvHeader,
      appendToFile, csvHeaderLine, csvDataLine, rowLine]

/-! ## Claim C3 -/

/-- C3 (counterexample): in the Node backend, when the schema file cannot
be read, `appendStructuredAnswersToCsv` completes without raising any
error and without writing anything: the submission proceeds as if nothing
were wrong while no CSV row was written. -/
theorem c3_server_silent_counterexample :
    appendStructuredAnswersToCsv .readFailed "s1"
        (some ⟨some (fun _ => none), none, none⟩) none none none
      = .ok (none, false) := rfl

/-- C3 (amended): the PHP endpoints report an unreadable or structurally
malformed schema source as a terminal 500 failure with a message and leave
the CSV file untouched; the Node `appendStructuredAnswersToCsv`, however,
swallows the failed schema load silently, writing nothing and raising
nothing. -/
theorem c3_schema_failure_reporting (sid ts te : PhpVal)
    (answers : String → Option PhpAnswer) (file : Option (List Nat))
    (sid2 : String) (sa : StructuredAnswers) (tsS tsE : Option String)
    (jfile : Option String) :
    SaveCsv.handle .readFailed sid ts te answers file
      = (.failure 500 "Impossible de charger questions.json", file)
    ∧ SaveCsv.handle .badJson sid ts te answers file
      = (.failure 500 "questions.json invalide", file)
    ∧ SaveCsv.handle (.parsed .noSections) sid ts te answers file
      = (.failure 500 "questions.json invalide", file)
    ∧ PartZero.handle .readFailed sid ts te answers file
      = (.failure 500 "Impossible de charger questions.json", file)
    ∧ PartZero.handle (.parsed .noSections) sid ts te answers file
      = (.failure 500 "questions.json invalide", file)
    ∧ appendStructuredAnswersToCsv .readFailed sid2 (some sa) tsS tsE jfile
      = .ok (jfile, false)
    ∧ appendStructuredAnswersToCsv .badJson sid2 (some sa) tsS tsE jfile
      = .ok (jfile, false) :=
  ⟨rfl, rfl, rfl, rfl, rfl, rfl, rfl⟩

/-! ## Claim C8 -/

lemma length_flatMap_pair {α β : Type} (f g : α → β) (l : List α) :
    (l.flatMap (fun x => [f x, g x])).length = 2 * l.length := by
  induction l with
  | nil => rfl
  | cons a l ih =>
      simp only [List.flatMap_cons, List.length_append, List.length_cons, ih]
      simp
      omega

lemma countP_sentinels (l : List String) :
    l.countP (fun x => !(x != "QO_INTRO" && x != "QO_OUTRO"))
      = l.count "QO_INTRO" + l.count "QO_OUTRO" := by
  induction l with
  | nil => rfl
  | cons a l ih =>
      by_cases h1 : a = "QO_INTRO"
      · subst h1
        simp only [List.countP_cons, List.count_cons, ih]
        simp
        omega
      · by_cases h2 : a = "QO_OUTRO"
        · subst h2
          simp only [List.countP_cons, List.count_cons, ih]
          simp
          omega
        · have j1 : (a != "QO_INTRO") = true := bne_iff_ne.mpr h1
          have j2 : (a != "QO_OUTRO") = true := bne_iff_ne.mpr h2
          have k1 : ("QO_INTRO" == a) = false := beq_eq_false_iff_ne.mpr (Ne.symm h1)
          have k2 : ("QO_OUTRO" == a) = false := beq_eq_false_iff_ne.mpr (Ne.symm h2)
          simp only [List.countP_cons, List.count_cons, ih, j1, j2]
          simp [h1, h2]

lemma pinOpen_length {l : List String} (h : l.Nodup) :
    (pinOpen l).length = l.length := by
  have hsplit := List.length_eq_countP_add_countP
    (fun x => x != "QO_INTRO" && x != "QO_OUTRO") l
  have hcongr : l.countP
        (fun a => decide ¬((fun x => x != "QO_INTRO" && x != "QO_OUTRO") a = true))
      = l.countP (fun x => !(x != "QO_INTRO" && x != "QO_OUTRO")) := by
    refine List.countP_congr (fun x _ => ?_)
    cases hb : (x != "QO_INTRO" && x != "QO_OUTRO") <;> simp [hb]
  have hsent := countP_sentinels l
  have hfl : (l.filter (fun x => x != "QO_INTRO" && x != "QO_OUTRO")).length
      = l.countP (fun x => x != "QO_INTRO" && x != "QO_OUTRO") :=
    (List.countP_eq_length_filter _ l).symm
  rw [hcongr, hsent] at hsplit
  by_cases hi : "QO_INTRO" ∈ l <;> by_cases ho : "QO_OUTRO" ∈ l
  · have c1 := List.count_eq_one_of_mem h hi
    have c2 := List.count_eq_one_of_mem h ho
    simp only [pinOpen, hi, ho, if_true, if_false, List.length_append,
      List.length_cons, List.length_nil, hfl]
    omega
  · have c1 := List.count_eq_one_of_mem h hi
    have c2 := List.count_eq_zero_of_not_mem ho
    simp only [pinOpen, hi, ho, if_true, if_false, List.length_append,
      List.length_cons, List.length_nil, hfl]
    omega
  · have c1 := List.count_eq_zero_of_not_mem hi
    have c2 := List.count_eq_one_of_mem h ho
    simp only [pinOpen, hi, ho, if_true, if_false, List.length_append,
      List.length_cons, List.length_nil, hfl]
    omega
  · have c1 := List.count_eq_zero_of_not_mem hi
    have c2 := List.count_eq_zero_of_not_mem ho
    simp only [pinOpen, hi, ho, if_true, if_false, List.length_append,
      List.length_cons, List.length_nil, hfl]
    omega

/-- C8: the data row built for a submission has exactly as many fields as
the header layout; moreover, for a schema whose open ids are distinct (ids
are unique per the data model), that common width is three metadata fields
plus one per open question, two per rating question and one per radio
question, whatever answers are present. -/
theorem c8_row_width_matches_header (qs : List RawQuestion)
    (answers : String → Option JsAnswer) (sid ts te : String) :
    (buildRowValues (buildCsvConfiguration qs) answers sid ts te).length
      = (buildCsvConfiguration qs).columns.length
    ∧ ((questionIdsOfType "open" qs).Nodup →
        (buildCsvConfiguration qs).columns.length
          = 3 + (questionIdsOfType "open" qs).length
            + 2 * (questionIdsOfType "rating" qs).length
            + (questionIdsOfType "radio" qs).length) := by
  constructor
  · simp only [buildRowValues, buildCsvConfiguration, List.length_append,
      List.length_map, List.length_cons, List.length_nil, length_flatMap_pair]
  · intro hnd
    have hlen := pinOpen_length hnd
    simp only [buildCsvConfiguration, orderOpenIds_eq_pinOpen, List.length_append,
      List.length_cons, List.length_nil, length_flatMap_pair, hlen]

/-- C8 (witness): for a concrete schema with one question of each type and
an empty submission, the header width is 3 + 1 + 2 + 1. -/
theorem c8_row_width_matches_header_witness :
    (buildCsvConfiguration [⟨some "Q1", some "open"⟩, ⟨some "R1", some "rating"⟩,
        ⟨some "D1", some "radio"⟩]).columns.length
      = 3 + (questionIdsOfType "open" [⟨some "Q1", some "open"⟩,
            ⟨some "R1", some "rating"⟩, ⟨some "D1", some "radio"⟩]).length
        + 2 * (questionIdsOfType "rating" [⟨some "Q1", some "open"⟩,
            ⟨some "R1", some "rating"⟩, ⟨some "D1", some "radio"⟩]).length
        + (questionIdsOfType "radio" [⟨some "Q1", some "open"⟩,
            ⟨some "R1", some "rating"⟩, ⟨some "D1", some "radio"⟩]).length :=
  (c8_row_width_matches_header _ (fun _ => none) "s" "t" "u").2 (by decide)

/-! ## Claim C9 -/

lemma flatMap_congr {α β : Type} {l : List α} {f g : α → List β}
    (h : ∀ a ∈ l, f a = g a) : l.flatMap f = l.flatMap g := by
  induction l with
  | nil => rfl
  | cons a l ih =>
      simp only [List.flatMap_cons, h a (by simp),
        ih (fun x hx => h x (List.mem_cons_of_mem _ hx))]

lemma mem_schemaIds_tail {id : String} (q : RawQuestion) {qs : List RawQuestion}
    (h : id ∈ schemaIds qs) : id ∈ schemaIds (q :: qs) := by
  cases hid : q.id with
  | none => simpa [schemaIds, List.filterMap_cons, hid] using h
  | some s =>
      have e : schemaIds (q :: qs) = s :: schemaIds qs := by
        simp [schemaIds, List.filterMap_cons, hid]
      rw [e]
      exact List.mem_cons_of_mem _ h

lemma mem_schemaIds_of_type {t id : String} :
    ∀ {qs : List RawQuestion}, id ∈ questionIdsOfType t qs → id ∈ schemaIds qs := by
  intro qs
  induction qs with
  | nil => intro h; exact absurd h (List.not_mem_nil _)
  | cons q rest ih =>
      intro h
      by_cases hc : (hasCsvId q && q.type == some t) = true
      · rw [questionIdsOfType, if_pos hc] at h
        rcases List.mem_cons.mp h with h | h
        · cases hid : q.id with
          | none => rw [hasCsvId, hid] at hc; exact absurd hc (by simp)
          | some s =>
              subst h
              simp [schemaIds, List.filterMap_cons, hid]
        · exact mem_schemaIds_tail q (ih h)
      · rw [questionIdsOfType, if_neg hc] at h
        exact mem_schemaIds_tail q (ih h)

lemma mem_of_mem_pinOpen {x : String} {l : List String} (h : x ∈ pinOpen l) : x ∈ l := by
  rcases List.mem_append.mp h with h | h
  · rcases List.mem_append.mp h with h | h
    · by_cases hi : "QO_INTRO" ∈ l
      · rw [if_pos hi] at h
        rcases List.mem_singleton.mp h with rfl
        exact hi
      · rw [if_neg hi] at h
        exact absurd h (List.not_mem_nil _)
    · exact (List.mem_filter.mp h).1
  · by_cases ho : "QO_OUTRO" ∈ l
    · rw [if_pos ho] at h
      rcases List.mem_singleton.mp h with rfl
      exact ho
    · rw [if_neg ho] at h
      exact absurd h (List.not_mem_nil _)

/-- C9: the rendered data row depends only on the session id, the
timestamps and the answer entries keyed by ids present in the schema: two
answer maps agreeing on every schema id produce the same line, whatever
extra keys they carry. -/
theorem c9_row_ignores_foreign_keys (qs : List RawQuestion)
    (a1 a2 : String → Option JsAnswer) (sid ts te : String)
    (h : ∀ id ∈ schemaIds qs, a1 id = a2 id) :
    rowLine (buildRowValues (buildCsvConfiguration qs) a1 sid ts te)
      = rowLine (buildRowValues (buildCsvConfiguration qs) a2 sid ts te) := by
  have hsch : ∀ t : String, ∀ id ∈ questionIdsOfType t qs, a1 id = a2 id :=
    fun t id hid => h id (mem_schemaIds_of_type hid)
  have hopen : ∀ id ∈ (buildCsvConfiguration qs).openIds, a1 id = a2 id := by
    intro id hid
    rw [buildCsvConfiguration_openIds] at hid
    exact hsch "open" id (mem_of_mem_pinOpen hid)
  have hrate : ∀ id ∈ (buildCsvConfiguration qs).ratingIds, a1 id = a2 id :=
    fun id hid => hsch "rating" id hid
  have hrad : ∀ id ∈ (buildCsvConfiguration qs).radioIds, a1 id = a2 id :=
    fun id hid => hsch "radio" id hid
  have e1 : (buildCsvConfiguration qs).openIds.map
        (fun id => extractAnswerValue (a1 id) "value")
      = (buildCsvConfiguration qs).openIds.map
        (fun id => extractAnswerValue (a2 id) "value") :=
    List.map_congr_left (fun id hid => by rw [hopen id hid])
  have e2 : (buildCsvConfiguration qs).ratingIds.flatMap (fun id =>
        [extractAnswerValue (a1 id) "value", extractAnswerValue (a1 id) "followup"])
      = (buildCsvConfiguration qs).ratingIds.flatMap (fun id =>
        [extractAnswerValue (a2 id) "value", extractAnswerValue (a2 id) "followup"]) :=
    flatMap_congr (fun id hid => by rw [hrate id hid])
  have e3 : (buildCsvConfiguration qs).radioIds.map
        (fun id => extractAnswerValue (a1 id) "value")
      = (buildCsvConfiguration qs).radioIds.map
        (fun id => extractAnswerValue (a2 id) "value") :=
    List.map_congr_left (fun id hid => by rw [hrad id hid])
  unfold buildRowValues
  rw [e1, e2, e3]

/-- C9 (witness): an answer map carrying an extra key `HACK` absent from
the schema produces the same line as the empty answer map. -/
theorem c9_row_ignores_foreign_keys_witness :
    rowLine (buildRowValues (buildCsvConfiguration [⟨some "Q1", some "open"⟩])
        (fun id => if id = "HACK" then some (.prim (.str "x")) else none) "s1" "t0" "t1")
      = rowLine (buildRowValues (buildCsvConfiguration [⟨some "Q1", some "open"⟩])
        (fun _ => none) "s1" "t0" "t1") :=
  c9_row_ignores_foreign_keys [⟨some "Q1", some "open"⟩]
    (fun id => if id = "HACK" then some (.prim (.str "x")) else none)
    (fun _ => none) "s1" "t0" "t1" (by decide)

/-! ## Claim C7 -/

lemma parseInField_quote_quote (tail acc : List Char) (fields : List (List Char)) :
    parseInField ('"' :: '"' :: tail) acc fields
      = parseInField tail (acc ++ ['"']) fields := by
  rw [parseInField.eq_def]
  simp

lemma parseInField_char {c : Char} (hq : c ≠ '"') (tail acc : List Char)
    (fields : List (List Char)) :
    parseInField (c :: tail) acc fields = parseInField tail (acc ++ [c]) fields := by
  rw [parseInField.eq_def]
  simp [hq]

lemma parseInField_close_comma (tail acc : List Char) (fields : List (List Char)) :
    parseInField ('"' :: ',' :: '"' :: tail) acc fields
      = parseInField tail [] (fields ++ [acc]) := rfl

lemma parseInField_close_newline (acc : List Char) (fields : List (List Char)) :
    parseInField ['"', '\n'] acc fields = some (fields ++ [acc]) := rfl

lemma parseLine_quote (rest : List Char) :
    parseLine ('"' :: rest) = parseInField rest [] [] := rfl

lemma parseInField_escaped :
    ∀ (s : List Char) (k acc : List Char) (fields : List (List Char)),
      parseInField (escapeQuotes s ++ '"' :: k) acc fields
        = parseInField ('"' :: k) (acc ++ s) fields := by
  intro s
  induction s with
  | nil => intro k acc fields; rw [escapeQuotes, List.nil_append, List.append_nil]
  | cons c cs ih =>
      intro k acc fields
      by_cases hq : c = '"'
      · subst hq
        rw [show escapeQuotes ('"' :: cs) = '"' :: '"' :: escapeQuotes cs from by
          simp [escapeQuotes]]
        rw [List.cons_append, List.cons_append, parseInField_quote_quote, ih]
        simp
      · rw [show escapeQuotes (c :: cs) = c :: escapeQuotes cs from by
          simp [escapeQuotes, hq]]
        rw [List.cons_append, parseInField_char hq, ih]
        simp

lemma join_quoted (v : List Char) (vs : List (List Char)) :
    joinCommaData ((v :: vs).map quoteData) = quoteData v ++ renderedTail vs := by
  induction vs generalizing v with
  | nil => simp [joinCommaData, renderedTail]
  | cons u us ih =>
      simp only [List.map_cons, joinCommaData] at ih ⊢
      rw [ih u]
      simp [renderedTail, List.flatMap_cons]

lemma parse_fields :
    ∀ (vs : List (List Char)) (v acc : List Char) (fields : List (List Char)),
      parseInField (escapeQuotes v ++ '"' :: (renderedTail vs ++ ['\n'])) acc fields
        = some (fields ++ [acc ++ v] ++ vs) := by
  intro vs
  induction vs with
  | nil =>
      intro v acc fields
      rw [parseInField_escaped]
      simp [renderedTail, parseInField_close_newline]
  | cons u us ih =>
      intro v acc fields
      have hshape : renderedTail (u :: us) ++ ['\n']
          = ',' :: '"' :: (escapeQuotes u ++ '"' :: (renderedTail us ++ ['\n'])) := by
        simp [renderedTail, List.flatMap_cons, quoteData, List.append_assoc]
      rw [hshape, parseInField_escaped, parseInField_close_comma, ih]
      simp

lemma stringMk_data (s : String) : String.mk s.data = s := by
  obtain ⟨d⟩ := s
  rfl

/-- C7: rendering any list of string field values into a CSV line and
parsing it back with the standard fully-quoted CSV grammar (doubled-quote
escaping) reproduces the original field values exactly. -/
theorem c7_csv_round_trip (vs : List String) :
    parseCsvLine (rowLine vs) = some vs := by
  cases vs with
  | nil => rfl
  | cons v rest =>
      have hdata : (rowLine (v :: rest)).data
          = '"' :: (escapeQuotes v.data ++ '"' :: (renderedTail (rest.map String.data) ++ ['\n'])) := by
        show joinCommaData (((v :: rest).map (fun s => some (JsPrim.str s))).map
            (fun u => (formatCsvValue u).data)) ++ ['\n'] = _
        rw [List.map_map]
        have e1 : ((fun u => (formatCsvValue u).data) ∘ (fun s => some (JsPrim.str s)))
            = (fun s : String => quoteData s.data) := rfl
        rw [e1]
        have e2 : (v :: rest).map (fun s : String => quoteData s.data)
            = (v.data :: rest.map String.data).map quoteData := by
          simp [List.map_map, Function.comp]
        rw [e2, join_quoted]
        simp [quoteData, List.append_assoc]
      unfold parseCsvLine
      rw [hdata, parseLine_quote, parse_fields]
      have e4 : ∀ s ∈ rest, (String.mk ∘ String.data) s = id s := fun s _ => stringMk_data s
      have e3 : (rest.map String.data).map String.mk = rest := by
        rw [List.map_map, List.map_congr_left e4, List.map_id]
      simp [e3, stringMk_data]

/-! ## Claim C10 -/

set_option maxRecDepth 4000

lemma utf8Decode_ascii_cons {b : Nat} (h : b < 128) (rest : List Nat) :
    Php.utf8Decode (b :: rest) = b :: Php.utf8Decode rest := by
  rw [Php.utf8Decode.eq_def]
  simp [h]

lemma utf8Decode_two {b b2 : Nat} (hge : 192 ≤ b) (hlt : b < 224) (rest : List Nat) :
    Php.utf8Decode (b :: b2 :: rest)
      = Php.latin1Of ((b - 192) * 64 + (b2 - 128)) :: Php.utf8Decode rest := by
  rw [Php.utf8Decode.eq_def]
  simp [show ¬ b < 128 from by omega, show ¬ b < 192 from by omega, hlt]

lemma utf8Decode_three {b b2 b3 : Nat} (hge : 224 ≤ b) (hlt : b < 240) (rest : List Nat) :
    Php.utf8Decode (b :: b2 :: b3 :: rest)
      = Php.latin1Of ((b - 224) * 4096 + (b2 - 128) * 64 + (b3 - 128))
        :: Php.utf8Decode rest := by
  rw [Php.utf8Decode.eq_def]
  simp [show ¬ b < 128 from by omega, show ¬ b < 192 from by omega,
    show ¬ b < 224 from by omega, hlt]

lemma utf8Decode_four {b b2 b3 b4 : Nat} (hge : 240 ≤ b) (rest : List Nat) :
    Php.utf8Decode (b :: b2 :: b3 :: b4 :: rest)
      = Php.latin1Of ((b - 240) * 262144 + (b2 - 128) * 4096 + (b3 - 128) * 64 + (b4 - 128))
        :: Php.utf8Decode rest := by
  rw [Php.utf8Decode.eq_def]
  simp [show ¬ b < 128 from by omega, show ¬ b < 192 from by omega,
    show ¬ b < 224 from by omega, show ¬ b < 240 from by omega]

lemma utf8Decode_encode (cps : List Nat) :
    Php.utf8Decode (utf8Encode cps) = cps.map Php.latin1Of := by
  induction cps with
  | nil => rfl
  | cons c cs ih =>
      by_cases h1 : c < 128
      · have e : utf8Encode (c :: cs) = c :: utf8Encode cs := by
          simp [utf8Encode, List.flatMap_cons, utf8EncodeChar, h1]
        rw [e, utf8Decode_ascii_cons h1, ih, List.map_cons]
        rw [show Php.latin1Of c = c from by
          unfold Php.latin1Of; rw [if_pos (by omega)]]
      · by_cases h2 : c < 2048
        · have e : utf8Encode (c :: cs)
              = (192 + c / 64) :: (128 + c % 64) :: utf8Encode cs := by
            simp [utf8Encode, List.flatMap_cons, utf8EncodeChar, h1, h2]
          rw [e, utf8Decode_two (by omega) (by omega), ih, List.map_cons]
          rw [show (192 + c / 64 - 192) * 64 + (128 + c % 64 - 128) = c from by omega]
        · by_cases h3 : c < 65536
          · have e : utf8Encode (c :: cs)
                = (224 + c / 4096) :: (128 + c / 64 % 64) :: (128 + c % 64)
                  :: utf8Encode cs := by
              simp [utf8Encode, List.flatMap_cons, utf8EncodeChar, h1, h2, h3]
            rw [e, utf8Decode_three (by omega) (by omega), ih, List.map_cons]
            rw [show (224 + c / 4096 - 224) * 4096 + (128 + c / 64 % 64 - 128) * 64
                + (128 + c % 64 - 128) = c from by omega]
          · have e : utf8Encode (c :: cs)
                = (240 + c / 262144) :: (128 + c / 4096 % 64) :: (128 + c / 64 % 64)
                  :: (128 + c % 64) :: utf8Encode cs := by
              simp [utf8Encode, List.flatMap_cons, utf8EncodeChar, h1, h2, h3]
            rw [e, utf8Decode_four (by omega), ih, List.map_cons]
            rw [show (240 + c / 262144 - 240) * 262144 + (128 + c / 4096 % 64 - 128) * 4096
                + (128 + c / 64 % 64 - 128) * 64 + (128 + c % 64 - 128) = c from by omega]

lemma one_le_length_utf8EncodeChar (c : Nat) : 1 ≤ (utf8EncodeChar c).length := by
  unfold utf8EncodeChar
  split_ifs <;> simp

lemma two_le_length_utf8EncodeChar {c : Nat} (h : 128 ≤ c) :
    2 ≤ (utf8EncodeChar c).length := by
  unfold utf8EncodeChar
  rw [if_neg (by omega)]
  split_ifs <;> simp

lemma le_length_utf8Encode : ∀ cps : List Nat, cps.length ≤ (utf8Encode cps).length := by
  intro cps
  induction cps with
  | nil => simp [utf8Encode]
  | cons c cs ih =>
      have h1 := one_le_length_utf8EncodeChar c
      simp only [utf8Encode, List.flatMap_cons, List.length_append, List.length_cons] at ih ⊢
      omega

lemma length_lt_utf8Encode :
    ∀ cps : List Nat, (∃ c ∈ cps, 128 ≤ c) → cps.length < (utf8Encode cps).length := by
  intro cps
  induction cps with
  | nil =>
      rintro ⟨c, hc, _⟩
      exact absurd hc (List.not_mem_nil _)
  | cons c cs ih =>
      rintro ⟨d, hd, hge⟩
      rcases List.mem_cons.mp hd with rfl | hd'
      · have h2 := two_le_length_utf8EncodeChar hge
        have h3 := le_length_utf8Encode cs
        simp only [utf8Encode, List.flatMap_cons, List.length_append, List.length_cons] at h3 ⊢
        omega
      · have h4 := ih ⟨d, hd', hge⟩
        have h1 := one_le_length_utf8EncodeChar c
        simp only [utf8Encode, List.flatMap_cons, List.length_append, List.length_cons] at h4 ⊢
        omega

lemma utf8Encode_ascii : ∀ cps : List Nat, (∀ c ∈ cps, c < 128) → utf8Encode cps = cps := by
  intro cps
  induction cps with
  | nil => intro _; rfl
  | cons c cs ih =>
      intro h
      have hc := h c (List.mem_cons_self c cs)
      have htail := ih (fun x hx => h x (List.mem_cons_of_mem _ hx))
      simp only [utf8Encode, List.flatMap_cons, utf8EncodeChar, if_pos hc] at htail ⊢
      rw [htail]
      rfl

/-- C10: in both PHP save endpoints the text decoder (`decodeOpenText` of
savecsv.php and `decodeText` of the unnamed endpoint, identical functions
applied to every extracted open-text and followup value) maps the empty
string to itself, leaves pure-ASCII values byte-for-byte unchanged, and
turns any value holding a non-ASCII character into the Latin-1 transcoding
of its UTF-8 bytes, which always differs from the submitted bytes. -/
theorem c10_utf8_decode_transcoding (cps : List Nat) :
    (∀ v : PhpVal, Php.decodeOpenText v = Php.decodeText v)
    ∧ Php.decodeText (.str []) = []
    ∧ ((∀ c ∈ cps, c < 128) →
        Php.decodeText (.str (utf8Encode cps)) = utf8Encode cps)
    ∧ ((∃ c ∈ cps, 128 ≤ c) →
        Php.decodeText (.str (utf8Encode cps)) = cps.map Php.latin1Of
        ∧ Php.decodeText (.str (utf8Encode cps)) ≠ utf8Encode cps) := by
  refine ⟨fun v => rfl, rfl, ?_, ?_⟩
  · intro hascii
    rw [show Php.decodeText (.str (utf8Encode cps)) = Php.decodeText (.str cps) from by
      rw [utf8Encode_ascii cps hascii]]
    by_cases hnil : cps = []
    · subst hnil; rfl
    · have e : Php.decodeText (.str cps) = Php.utf8Decode cps := by
        simp [Php.decodeText, PhpVal.toStr, hnil]
      rw [e]
      have e2 : Php.utf8Decode cps = Php.utf8Decode (utf8Encode cps) := by
        rw [utf8Encode_ascii cps hascii]
      rw [e2, utf8Decode_encode, utf8Encode_ascii cps hascii]
      have e5 : ∀ c ∈ cps, Php.latin1Of c = id c := fun c hc => by
        unfold Php.latin1Of
        rw [if_pos (by have := hascii c hc; omega)]
        rfl
      rw [List.map_congr_left e5, List.map_id]
  · intro hex
    have hne : utf8Encode cps ≠ [] := by
      intro h0
      have hlt := length_lt_utf8Encode cps hex
      rw [h0] at hlt
      simp at hlt
    have e : Php.decodeText (.str (utf8Encode cps)) = cps.map Php.latin1Of := by
      simp [Php.decodeText, PhpVal.toStr, hne, utf8Decode_encode]
    refine ⟨e, ?_⟩
    intro heq
    rw [e] at heq
    have hlen := congrArg List.length heq
    rw [List.length_map] at hlen
    have hlt := length_lt_utf8Encode cps hex
    omega

/-- C10 (witness): the submitted text `eé` (code points 101, 233; UTF-8
bytes 101, 195, 169) is persisted as the Latin-1 bytes 101, 233, which
differ from the submitted bytes. -/
theorem c10_utf8_decode_transcoding_witness :
    Php.decodeText (.str (utf8Encode [101, 233])) = [101, 233].map Php.latin1Of
    ∧ Php.decodeText (.str (utf8Encode [101, 233])) ≠ utf8Encode [101, 233] :=
  (c10_utf8_decode_transcoding [101, 233]).2.2.2 ⟨233, by decide, by decide⟩

end Audirep

example :
    (Audirep.buildCsvConfiguration
      [⟨some "Q1", some "open"⟩, ⟨some "R1", some "rating"⟩]).columns
    = ["sessionId", "timestampStart", "timestampEnd", "Q1", "R1", "R1_followup"] := by
  decide

example :
    (Audirep.buildCsvConfiguration
      [⟨some "QO_OUTRO", some "open"⟩, ⟨some "QA", some "open"⟩]).columns
    = ["sessionId", "timestampStart", "timestampEnd", "QA", "QO_OUTRO"] := by
  decide

example : Audirep.formatCsvValue (some (.str "a\"b")) = "\"a\"\"b\"" := by decide

example :
    Audirep.renderLine [some (.str "s1"), none, some (.num 4)] = "\"s1\",\"\",\"4\"\n" := by
  decide
